import Mathlib

/-
Verification development for the fair-universe data-generation pipelines.

The repository contains two generator pipelines,
`Data Generators/Data_Generator_2D/data_generator_all_systematics.py`
(called "AllSys" below) and `Data_Generator/data_generator_mix.py`
(called "Mix" below), plus the HEP train/test partitioner
`Competition_Bundle_HEP/datagen_temp.py`.

Conventions of the embedding:
- machine floats are modelled as exact rationals (ℚ);
- `numpy`/`math` trigonometric functions, `scipy` CDF/PPF functions, the
  pseudo-random samplers, and the seed-determined `sklearn.utils.shuffle`
  permutation are modelled as oracle function fields of a `GenEnv`
  environment record (the shuffle permutation is a function of the seed
  and the length, which is exactly sklearn's documented determinism
  contract for a fixed `random_state`);
- Python's `int(...)` truncation and `round(..., n)` banker's rounding
  are modelled exactly on ℚ.
-/

namespace FairUniverse

/-- Python `round` to the nearest integer, ties to even (banker's rounding). -/
def roundHalfEven (q : ℚ) : ℤ :=
  if q - ⌊q⌋ < 1/2 then ⌊q⌋
  else if 1/2 < q - ⌊q⌋ then ⌊q⌋ + 1
  else if ⌊q⌋ % 2 = 0 then ⌊q⌋ else ⌊q⌋ + 1

/-- Python `round(q, ndigits)` on exact rationals. -/
def pyRound (q : ℚ) (ndigits : ℕ) : ℚ :=
  (roundHalfEven (q * (10 ^ ndigits)) : ℚ) / 10 ^ ndigits

/-- Python `round(q, 2)`, used by the Mix translation vector. -/
def round2 (q : ℚ) : ℚ := pyRound q 2

/-- Python `round(q, 5)`, used by the AllSys signal fraction. -/
def round5 (q : ℚ) : ℚ := pyRound q 5

/-- Python `int(...)` applied to a real value: truncation toward zero. -/
def pyInt (q : ℚ) : ℤ := if 0 ≤ q then ⌊q⌋ else ⌈q⌉

/-- AllSys `__init__`: `self.ps = round(1 - self.pb, 5)`
(data_generator_all_systematics.py line 92). -/
def psAllSys (pb : ℚ) : ℚ := round5 (1 - pb)

/-- AllSys `__init__`: `int(self.total_number_of_events * self.ps)` (line 94). -/
def nSignalAllSys (total : ℕ) (pb : ℚ) : ℤ := pyInt (total * psAllSys pb)

/-- AllSys `__init__`: `int(self.total_number_of_events * self.pb)` (line 95). -/
def nBackgroundAllSys (total : ℕ) (pb : ℚ) : ℤ := pyInt (total * pb)

/-- Mix `__init__`: `self.ps = 1 - self.pb; int(total * ps)`
(data_generator_mix.py lines 85-87). -/
def nSignalMix (total : ℕ) (pb : ℚ) : ℤ := pyInt (total * (1 - pb))

/-- Mix `__init__`: `int(total * pb)` (data_generator_mix.py line 88). -/
def nBackgroundMix (total : ℕ) (pb : ℚ) : ℤ := pyInt (total * pb)

lemma pyInt_of_nonneg {q : ℚ} (h : 0 ≤ q) : pyInt q = ⌊q⌋ := if_pos h

/-- Shared truncation bound: with exact fractions summing to 1, the two
truncated counts lose strictly less than 2 events and never exceed the total. -/
lemma counts_core (total : ℕ) (pb : ℚ) (h0 : 0 < pb) (h1 : pb < 1) :
    pyInt (total * (1 - pb)) + pyInt (total * pb) ≤ total ∧
      (total : ℤ) - (pyInt (total * (1 - pb)) + pyInt (total * pb)) < 2 := by
  have hs : (0 : ℚ) ≤ (total : ℚ) * (1 - pb) :=
    mul_nonneg (Nat.cast_nonneg total) (by linarith)
  have hb : (0 : ℚ) ≤ (total : ℚ) * pb :=
    mul_nonneg (Nat.cast_nonneg total) h0.le
  rw [pyInt_of_nonneg hs, pyInt_of_nonneg hb]
  have hsum : (total : ℚ) * (1 - pb) + (total : ℚ) * pb = total := by ring
  have hfl1 : (⌊(total : ℚ) * (1 - pb)⌋ : ℚ) ≤ (total : ℚ) * (1 - pb) :=
    Int.floor_le _
  have hfl2 : (⌊(total : ℚ) * pb⌋ : ℚ) ≤ (total : ℚ) * pb := Int.floor_le _
  have hlt1 : (total : ℚ) * (1 - pb) - 1 < ⌊(total : ℚ) * (1 - pb)⌋ :=
    Int.sub_one_lt_floor _
  have hlt2 : (total : ℚ) * pb - 1 < ⌊(total : ℚ) * pb⌋ := Int.sub_one_lt_floor _
  constructor
  · have : (⌊(total : ℚ) * (1 - pb)⌋ + ⌊(total : ℚ) * pb⌋ : ℚ) ≤ (total : ℚ) := by
      linarith
    exact_mod_cast this
  · have : ((total : ℚ)) - (⌊(total : ℚ) * (1 - pb)⌋ + ⌊(total : ℚ) * pb⌋ : ℚ) < 2 := by
      linarith
    exact_mod_cast this

/-- C2 (counterexample): with `total_number_of_events = 1000000` and
`p_b = 1/250000` (a valid configuration: `p_b` lies in `(0,1)`), the AllSys
pipeline computes `p_s = round(1 - p_b, 5) = 1`, so
`n_signal_events = 1000000` and `n_background_events = 4`: the two counts sum
to `1000004 > total_number_of_events`, refuting both the `≤` bound and the
`loss < 2` part of the claim. -/
theorem counts_exceed_total_cex :
    0 < (1/250000 : ℚ) ∧ (1/250000 : ℚ) < 1 ∧
      ¬(nSignalAllSys 1000000 (1/250000) + nBackgroundAllSys 1000000 (1/250000) ≤
          (1000000 : ℤ)) := by
  refine ⟨by norm_num, by norm_num, ?_⟩
  have h : nSignalAllSys 1000000 (1/250000) +
      nBackgroundAllSys 1000000 (1/250000) = 1000004 := by
    norm_num [nSignalAllSys, nBackgroundAllSys, psAllSys, round5, pyRound,
      roundHalfEven, pyInt]
  rw [h]
  norm_num

/-- C2 (amended): for every valid configuration
(`total_number_of_events` a non-negative integer, `p_b` in `(0,1)`) the
Mix pipeline's counts satisfy
`n_signal_events + n_background_events ≤ total_number_of_events` with
truncation loss strictly less than 2; the AllSys pipeline satisfies the
same bounds whenever the rounding step is lossless, i.e. whenever
`round(1 - p_b, 5) = 1 - p_b` (in particular whenever `p_b` is a multiple
of `10⁻⁵`). Without that restriction the AllSys counts can exceed the
total (see the counterexample). -/
theorem counts_truncation_amended (total : ℕ) (pb : ℚ) (h0 : 0 < pb) (h1 : pb < 1) :
    (nSignalMix total pb + nBackgroundMix total pb ≤ total ∧
      (total : ℤ) - (nSignalMix total pb + nBackgroundMix total pb) < 2) ∧
    (psAllSys pb = 1 - pb →
      nSignalAllSys total pb + nBackgroundAllSys total pb ≤ total ∧
        (total : ℤ) - (nSignalAllSys total pb + nBackgroundAllSys total pb) < 2) := by
  constructor
  · exact counts_core total pb h0 h1
  · intro hps
    have := counts_core total pb h0 h1
    rw [nSignalAllSys, nBackgroundAllSys, hps]
    exact this

/-- C2 (witness): the amended bound evaluated at `total = 10`, `p_b = 3/10`:
the counts are 7 and 3, summing exactly to the total. -/
theorem counts_truncation_witness :
    (0 < (3/10 : ℚ) ∧ (3/10 : ℚ) < 1 ∧ psAllSys (3/10) = 1 - 3/10) ∧
      (nSignalMix 10 (3/10) + nBackgroundMix 10 (3/10) ≤ 10 ∧
        (10 : ℤ) - (nSignalMix 10 (3/10) + nBackgroundMix 10 (3/10)) < 2) ∧
      (nSignalAllSys 10 (3/10) + nBackgroundAllSys 10 (3/10) ≤ 10 ∧
        (10 : ℤ) - (nSignalAllSys 10 (3/10) + nBackgroundAllSys 10 (3/10)) < 2) := by
  have hps : psAllSys (3/10) = 1 - 3/10 := by
    norm_num [psAllSys, round5, pyRound, roundHalfEven]
  have h := counts_truncation_amended 10 (3/10) (by norm_num) (by norm_num)
  exact ⟨⟨by norm_num, by norm_num, hps⟩, h.1, h.2 hps⟩

/-!
## Data model for the generation pipelines

Points are rows of rationals.  The pseudo-random draws, the trigonometric
functions (`cos`/`sin` of an angle given in degrees, conversion to radians
included), the scipy CDF/PPF functions and the seed-determined shuffle
permutation are oracle fields of `GenEnv`.
-/

/-- A data point: one row of `problem_dimension` rationals. -/
abbrev Point := List ℚ

/-- A labelled row of a combined dataframe: features plus the `y` column. -/
abbrev Row := Point × ℚ

/-- Oracle environment: external randomness and transcendental functions.
`sigDraw i n` is the point set returned by the `i`-th `generate_points`
call on the signal distribution, requesting `n` points; likewise `bgDraw`
for the background distribution.  `seedPerm seed len` is the permutation
(a list of indices) that `sklearn.utils.shuffle` with `random_state = seed`
applies to an input of length `len` — a function of seed and length only,
which is sklearn's documented determinism contract.  `cosd`/`sind` model
`cos(radians(·))`/`sin(radians(·))` on a degree argument, and
`normCdf`/`gammaPpf` model `scipy.stats.norm.cdf` and
`scipy.stats.gamma.ppf(·, alpha, beta)`. -/
structure GenEnv where
  sigDraw : ℕ → ℕ → List Point
  bgDraw : ℕ → ℕ → List Point
  seedPerm : ℕ → ℕ → List ℕ
  cosd : ℚ → ℚ
  sind : ℚ → ℚ
  normCdf : ℚ → ℚ
  gammaPpf : ℚ → ℚ → ℚ → ℚ

/-- The distribution contract `generate_points(n, dimension) → n×dimension
matrix`: every draw returns exactly the requested number of points. -/
def SamplerHonest (env : GenEnv) : Prop :=
  ∀ i n, (env.sigDraw i n).length = n ∧ (env.bgDraw i n).length = n

/-- Generator state after `__init__`: event counts, copula configuration and
the four optional systematic operators (`None` when disabled). -/
structure GenState where
  nSig : ℕ
  nBg : ℕ
  applyCopula : Bool
  alpha : Option ℚ
  beta : Option ℚ
  sysRotation : Option ℚ
  sysTranslation : Option (ℚ × ℚ)
  sysScaling : Option (List ℚ)
  sysBox : Option (List ℚ × ℚ)

/-- Python truthiness of `self.alpha` / `self.beta`: `None` and `0` are
falsy, every other number is truthy. -/
def truthy : Option ℚ → Bool
  | none => false
  | some q => q != 0

/-!
### Systematic operators

Modelled from the spec: the `systematics` module (classes `Translation`,
`Scaling`, `Rotation`, `Box`) is imported by both generators but its source
is not part of the repository snapshot; the operators below follow the
spec's §4.2 contract: Translation adds a fixed vector to the first two axes
of every point; Scaling multiplies coordinates elementwise by a per-axis
factor; Rotation rotates the first two axes by the standard 2D rotation
matrix; Box keeps only the rows of the two joined frames whose coordinates
lie within an axis-aligned cube, applying the same row-membership predicate
to both frames to keep them index-aligned.
-/

/-- Modelled from the spec: `Translation.apply_systematics` on one point —
adds the translation vector to the first two axes, higher axes untouched. -/
def addVec2 (v : ℚ × ℚ) : Point → Point
  | [] => []
  | [x] => [x + v.1]
  | x :: y :: rest => (x + v.1) :: (y + v.2) :: rest

/-- Modelled from the spec: `Translation.apply_systematics` on a point set. -/
def applyTranslation (v : ℚ × ℚ) (pts : List Point) : List Point :=
  pts.map (addVec2 v)

/-- Modelled from the spec: elementwise scaling of one point by a per-axis
factor vector; axes beyond the vector's length are untouched. -/
def scalePoint : List ℚ → Point → Point
  | _, [] => []
  | [], p => p
  | s :: ss, x :: xs => (s * x) :: scalePoint ss xs

/-- Modelled from the spec: `Scaling.apply_systematics` on a point set. -/
def applyScaling (sv : List ℚ) (pts : List Point) : List Point :=
  pts.map (scalePoint sv)

/-- Modelled from the spec: standard 2D rotation of the first two axes with
the given cosine and sine values. -/
def rotatePoint (c s : ℚ) : Point → Point
  | x :: y :: rest => (x * c - y * s) :: (x * s + y * c) :: rest
  | p => p

/-- Modelled from the spec: `Rotation.apply_systematics` on a point set;
the rotation angle is configured in degrees. -/
def applyRotation (env : GenEnv) (deg : ℚ) (pts : List Point) : List Point :=
  pts.map (rotatePoint (env.cosd deg) (env.sind deg))

/-- Modelled from the spec: membership of a point in the axis-aligned box of
side `len` centred at `c` (tested on the axes the centre vector covers). -/
def inBox (c : List ℚ) (len : ℚ) (p : Point) : Bool :=
  (c.zip p).all (fun cx => |cx.2 - cx.1| ≤ len / 2)

/-- Modelled from the spec: `Box.apply_systematics (df_a, df_b)` — keeps
exactly the index positions whose rows lie inside the box in BOTH the
original and the biased frame, returning the two filtered frames. -/
def applyBox (c : List ℚ) (len : ℚ) (fa fb : List Row) : List Row × List Row :=
  let kept := (fa.zip fb).filter
    (fun pr => inBox c len pr.1.1 && inBox c len pr.2.1)
  (kept.map (fun pr => pr.1), kept.map (fun pr => pr.2))

/-- Skip-or-apply for the Rotation slot (`if self.systematic_rotation is not
None` in `generate_data`). -/
def applyOptRot (env : GenEnv) : Option ℚ → List Point → List Point
  | some d, pts => applyRotation env d pts
  | none, pts => pts

/-- Skip-or-apply for the Translation slot. -/
def applyOptTrans : Option (ℚ × ℚ) → List Point → List Point
  | some v, pts => applyTranslation v pts
  | none, pts => pts

/-- Skip-or-apply for the Scaling slot. -/
def applyOptScal : Option (List ℚ) → List Point → List Point
  | some sv, pts => applyScaling sv pts
  | none, pts => pts

/-- Skip-or-apply for the Box slot, acting jointly on the two frames. -/
def applyOptBox : Option (List ℚ × ℚ) → List Row × List Row → List Row × List Row
  | some cl, fr => applyBox cl.1 cl.2 fr.1 fr.2
  | none, fr => fr

/-!
### Loading systematics in `__init__`

One descriptor per entry of the `settings["systematics"]` list; the loop
dispatches on the `name` field, so descriptors are a sum type here.
-/

/-- One entry of the configuration's `systematics` list. -/
inductive SystematicDesc where
  | translation (z_magnitude alpha : ℚ)
  | scaling (scaling_factor : ℚ)
  | box (box_l : ℚ)
  | rotation (rotation_degree : ℚ)

/-- The four operator slots of a `DataGenerator` after `__init__`. -/
structure LoadedSystematics where
  translation : Option (ℚ × ℚ)
  scaling : Option (List ℚ)
  box : Option (List ℚ × ℚ)
  rotation : Option ℚ

/-- One iteration of the AllSys `__init__` systematics loop
(data_generator_all_systematics.py lines 175-217): Translation is built
unconditionally with vector `z_magnitude * (cos(radians(alpha)),
sin(radians(alpha)))`; Scaling only when `scaling_factor > 1`; Box only when
`box_l > 1` (centred at the configured box centre); Rotation only when
`rotation_degree ≠ 0`. -/
def loadStepAllSys (env : GenEnv) (bc : List ℚ) (acc : LoadedSystematics) :
    SystematicDesc → LoadedSystematics
  | .translation z a =>
      { acc with translation := some (env.cosd a * z, env.sind a * z) }
  | .scaling f =>
      if f > 1 then { acc with scaling := some [f, f] } else acc
  | .box l =>
      if l > 1 then { acc with box := some (bc, l) } else acc
  | .rotation r =>
      if r ≠ 0 then { acc with rotation := some r } else acc

/-- AllSys `__init__` systematics loop over the descriptor list. -/
def loadSystematicsAllSys (env : GenEnv) (bc : List ℚ)
    (descs : List SystematicDesc) : LoadedSystematics :=
  descs.foldl (loadStepAllSys env bc) ⟨none, none, none, none⟩

/-- One iteration of the Mix `__init__` systematics loop
(data_generator_mix.py lines 133-176): identical to AllSys except that the
translation vector uses `round(cos(radians(alpha)), 2)` and
`round(sin(radians(alpha)), 2)`, and the box centre is the signal mean. -/
def loadStepMix (env : GenEnv) (bc : List ℚ) (acc : LoadedSystematics) :
    SystematicDesc → LoadedSystematics
  | .translation z a =>
      { acc with
        translation := some (round2 (env.cosd a) * z, round2 (env.sind a) * z) }
  | .scaling f =>
      if f > 1 then { acc with scaling := some [f, f] } else acc
  | .box l =>
      if l > 1 then { acc with box := some (bc, l) } else acc
  | .rotation r =>
      if r ≠ 0 then { acc with rotation := some r } else acc

/-- Mix `__init__` systematics loop over the descriptor list. -/
def loadSystematicsMix (env : GenEnv) (bc : List ℚ)
    (descs : List SystematicDesc) : LoadedSystematics :=
  descs.foldl (loadStepMix env bc) ⟨none, none, none, none⟩

/-!
### `generate_data`
-/

/-- Copula remap of one point set: each coordinate through the
standard-normal CDF, then the Gamma inverse CDF with parameters
`(alpha, beta)` (data_generator_all_systematics.py lines 267-271). -/
def copulaMap (env : GenEnv) (a b : ℚ) (pts : List Point) : List Point :=
  pts.map (fun p => p.map (fun x => env.gammaPpf (env.normCdf x) a b))

/-- The copula block of AllSys `generate_data` (lines 264-274): applied to
the original and the biased background point sets when `apply_copula` is
set AND both `alpha` and `beta` are truthy; otherwise the sets are left
unchanged, and a warning is logged (third component) exactly when
`apply_copula` is set but a parameter is falsy. -/
def copulaStep (env : GenEnv) (ac : Bool) (al be : Option ℚ)
    (bg bbg : List Point) : List Point × List Point × Bool :=
  if ac then
    if truthy al && truthy be then
      (copulaMap env (al.getD 0) (be.getD 0) bg,
       copulaMap env (al.getD 0) (be.getD 0) bbg, false)
    else (bg, bbg, true)
  else (bg, bbg, false)

/-- Stacking a label column onto a point set: `np.hstack` with a label
vector of length `n` (`n` is the row count of the ORIGINAL draw, both for
the original and for the biased frame, as in the source). -/
def stackRows (pts : List Point) (n : ℕ) (lbl : ℚ) : List Row :=
  pts.zip (List.replicate n lbl)

/-- Applying a shuffle permutation: row `j` of the output is row `p j` of
the input. -/
def applyPerm {α : Type} [Inhabited α] (p : List ℕ) (xs : List α) : List α :=
  p.map (fun i => xs.getD i default)

/-- The biased-set transformation chain of `generate_data`, in source
order: Rotation (lines 288-291), then Translation (294-297), then Scaling
(300-303), each slot skipped when its operator was not constructed. -/
def biasChain (env : GenEnv) (st : GenState) (pts : List Point) : List Point :=
  applyOptScal st.sysScaling
    (applyOptTrans st.sysTranslation
      (applyOptRot env st.sysRotation pts))

/-- The original background set after the copula block of AllSys
`generate_data` (the block transforms `background_data` in place). -/
def bgAfterCopula (env : GenEnv) (st : GenState) : List Point :=
  (copulaStep env st.applyCopula st.alpha st.beta
    (env.bgDraw 0 st.nBg) (env.bgDraw 1 st.nBg)).1

/-- The biased background set after the copula block of AllSys
`generate_data`. -/
def biasedBgAfterCopula (env : GenEnv) (st : GenState) : List Point :=
  (copulaStep env st.applyCopula st.alpha st.beta
    (env.bgDraw 0 st.nBg) (env.bgDraw 1 st.nBg)).2.1

/-- AllSys `generate_data` up to the Box systematic: draws two independent
pairs of point sets (`generate_points` calls 0 and 1 on each distribution,
lines 249-257), applies the copula block to the two background sets,
applies Rotation, Translation and Scaling to the biased sets, stacks the
label columns (signal = 1 first, background = 0 below) into the original
and the biased frame, and finally applies Box jointly to both frames
(lines 341-349). -/
def framesAllSys (env : GenEnv) (st : GenState) : List Row × List Row :=
  applyOptBox st.sysBox
    (stackRows (env.sigDraw 0 st.nSig) (env.sigDraw 0 st.nSig).length 1 ++
       stackRows (bgAfterCopula env st) (bgAfterCopula env st).length 0,
     stackRows (biasChain env st (env.sigDraw 1 st.nSig))
         (env.sigDraw 0 st.nSig).length 1 ++
       stackRows (biasChain env st (biasedBgAfterCopula env st))
         (bgAfterCopula env st).length 0)

/-- Mix `generate_data` up to the Box systematic (data_generator_mix.py
lines 208-283): a SINGLE pair of `generate_points` calls; the biased sets
start as the very same arrays (`biased_signal_data = signal_data`,
`biased_background_data = background_data`, lines 220-221) before the
Rotation/Translation/Scaling chain; no copula block. -/
def framesMix (env : GenEnv) (st : GenState) : List Row × List Row :=
  applyOptBox st.sysBox
    (stackRows (env.sigDraw 0 st.nSig) (env.sigDraw 0 st.nSig).length 1 ++
       stackRows (env.bgDraw 0 st.nBg) (env.bgDraw 0 st.nBg).length 0,
     stackRows (biasChain env st (env.sigDraw 0 st.nSig))
         (env.sigDraw 0 st.nSig).length 1 ++
       stackRows (biasChain env st (env.bgDraw 0 st.nBg))
         (env.bgDraw 0 st.nBg).length 0)

/-- The four arrays held by the generator after `generate_data`. -/
structure GenOutput where
  generatedData : List Point
  generatedLabels : List ℚ
  biasedData : List Point
  biasedLabels : List ℚ

/-- The tail of both `generate_data` implementations: split each frame back
into data columns and the `y` column, then shuffle each of the four arrays
separately with `random_state = 33`. -/
def shuffleSplit (env : GenEnv) (fr : List Row × List Row) : GenOutput :=
  { generatedData :=
      applyPerm (env.seedPerm 33 (fr.1.map Prod.fst).length) (fr.1.map Prod.fst)
    generatedLabels :=
      applyPerm (env.seedPerm 33 (fr.1.map Prod.snd).length) (fr.1.map Prod.snd)
    biasedData :=
      applyPerm (env.seedPerm 33 (fr.2.map Prod.fst).length) (fr.2.map Prod.fst)
    biasedLabels :=
      applyPerm (env.seedPerm 33 (fr.2.map Prod.snd).length) (fr.2.map Prod.snd) }

/-- AllSys `DataGenerator.generate_data`. -/
def generateDataAllSys (env : GenEnv) (st : GenState) : GenOutput :=
  shuffleSplit env (framesAllSys env st)

/-- Mix `DataGenerator.generate_data`. -/
def generateDataMix (env : GenEnv) (st : GenState) : GenOutput :=
  shuffleSplit env (framesMix env st)

/-- `save_data`'s label serialization: one `str(int(lbl))` per line,
newline-separated with no trailing newline (lines 437-453). -/
def serializeLabels (ls : List ℚ) : String :=
  String.intercalate ("\n") (ls.map (fun l => toString (pyInt l)))

/-!
### Length and label bookkeeping lemmas
-/

lemma applyOptRot_length (env : GenEnv) (o : Option ℚ) (pts : List Point) :
    (applyOptRot env o pts).length = pts.length := by
  cases o <;> simp [applyOptRot, applyRotation]

lemma applyOptTrans_length (o : Option (ℚ × ℚ)) (pts : List Point) :
    (applyOptTrans o pts).length = pts.length := by
  cases o <;> simp [applyOptTrans, applyTranslation]

lemma applyOptScal_length (o : Option (List ℚ)) (pts : List Point) :
    (applyOptScal o pts).length = pts.length := by
  cases o <;> simp [applyOptScal, applyScaling]

lemma biasChain_length (env : GenEnv) (st : GenState) (pts : List Point) :
    (biasChain env st pts).length = pts.length := by
  rw [biasChain, applyOptScal_length, applyOptTrans_length, applyOptRot_length]

lemma copulaStep_fst_length (env : GenEnv) (ac : Bool) (al be : Option ℚ)
    (bg bbg : List Point) : (copulaStep env ac al be bg bbg).1.length = bg.length := by
  rw [copulaStep]
  split_ifs <;> simp [copulaMap]

lemma copulaStep_snd_length (env : GenEnv) (ac : Bool) (al be : Option ℚ)
    (bg bbg : List Point) :
    (copulaStep env ac al be bg bbg).2.1.length = bbg.length := by
  rw [copulaStep]
  split_ifs <;> simp [copulaMap]

lemma bgAfterCopula_length (env : GenEnv) (st : GenState) :
    (bgAfterCopula env st).length = (env.bgDraw 0 st.nBg).length :=
  copulaStep_fst_length ..

lemma biasedBgAfterCopula_length (env : GenEnv) (st : GenState) :
    (biasedBgAfterCopula env st).length = (env.bgDraw 1 st.nBg).length :=
  copulaStep_snd_length ..

lemma stackRows_fst (pts : List Point) (n : ℕ) (lbl : ℚ) (h : pts.length = n) :
    (stackRows pts n lbl).map Prod.fst = pts := by
  rw [stackRows, List.map_fst_zip]
  simp [h]

lemma stackRows_snd (pts : List Point) (n : ℕ) (lbl : ℚ) (h : pts.length = n) :
    (stackRows pts n lbl).map Prod.snd = List.replicate n lbl := by
  rw [stackRows, List.map_snd_zip]
  simp [h]

lemma biasChain_of_none (env : GenEnv) (st : GenState) (pts : List Point)
    (hR : st.sysRotation = none) (hT : st.sysTranslation = none)
    (hS : st.sysScaling = none) : biasChain env st pts = pts := by
  simp [biasChain, hR, hT, hS, applyOptRot, applyOptTrans, applyOptScal]

/-!
## C1: independence of the original and biased draws
-/

/-- Concrete oracle environment whose two successive draws differ, and whose
shuffle permutation is the identity. -/
def envC : GenEnv :=
  { sigDraw := fun i _ => if i = 0 then [[1, 2]] else [[5, 6]]
    bgDraw := fun i _ => if i = 0 then [[3, 4]] else [[7, 8]]
    seedPerm := fun _ n => List.range n
    cosd := fun _ => 1
    sind := fun _ => 0
    normCdf := fun x => x
    gammaPpf := fun x _ _ => x }

/-- Concrete generator state: one signal and one background event, no
copula, no systematics. -/
def stC : GenState := ⟨1, 1, false, none, none, none, none, none, none⟩

/-- C1 (counterexample): in the Mix pipeline, `generate_data` makes only one
pair of `generate_points` calls and initializes the biased point sets as the
very same arrays, so with no systematics configured the biased data equals
the original data exactly — even though a second, independent draw (which
the claim requires) would have produced different points. -/
theorem mix_biased_alias_cex :
    (generateDataMix envC stC).biasedData = (generateDataMix envC stC).generatedData ∧
      envC.sigDraw 1 1 ≠ envC.sigDraw 0 1 ∧
      (generateDataMix envC stC).biasedData ≠
        applyPerm (envC.seedPerm 33 2) (envC.sigDraw 1 1 ++ envC.bgDraw 1 1) := by
  refine ⟨rfl, by decide, by decide⟩

/-- C1 (amended): the AllSys pipeline's `generate_data` does draw two
independent (signal, background) pairs of the same population sizes — with
no systematics and no copula configured, the original dataset is the
shuffled first draw pair and the biased dataset is the shuffled SECOND draw
pair; the Mix pipeline instead draws a single pair and initializes the
biased set as those very same points, so there its biased output coincides
with the original output. -/
theorem generate_data_independent_draws_amended (env : GenEnv) (st : GenState)
    (hs : SamplerHonest env)
    (hR : st.sysRotation = none) (hT : st.sysTranslation = none)
    (hS : st.sysScaling = none) (hB : st.sysBox = none)
    (hC : st.applyCopula = false) :
    (generateDataAllSys env st).generatedData =
        applyPerm (env.seedPerm 33 (st.nSig + st.nBg))
          (env.sigDraw 0 st.nSig ++ env.bgDraw 0 st.nBg) ∧
      (generateDataAllSys env st).biasedData =
        applyPerm (env.seedPerm 33 (st.nSig + st.nBg))
          (env.sigDraw 1 st.nSig ++ env.bgDraw 1 st.nBg) ∧
      (generateDataMix env st).biasedData = (generateDataMix env st).generatedData := by
  have hsig0 := (hs 0 st.nSig).1
  have hsig1 := (hs 1 st.nSig).1
  have hbg0 := (hs 0 st.nBg).2
  have hbg1 := (hs 1 st.nBg).2
  have hcop : bgAfterCopula env st = env.bgDraw 0 st.nBg := by
    rw [bgAfterCopula, hC, copulaStep]
    simp
  have hcop1 : biasedBgAfterCopula env st = env.bgDraw 1 st.nBg := by
    rw [biasedBgAfterCopula, hC, copulaStep]
    simp
  have hchain : ∀ pts, biasChain env st pts = pts := fun pts =>
    biasChain_of_none env st pts hR hT hS
  refine ⟨?_, ?_, ?_⟩
  · show applyPerm _ ((framesAllSys env st).1.map Prod.fst) = _
    rw [framesAllSys, hB]
    simp only [applyOptBox, hcop, List.map_append]
    rw [stackRows_fst _ _ _ rfl, stackRows_fst _ _ _ rfl]
    rw [List.length_append, hsig0, hbg0]
  · show applyPerm _ ((framesAllSys env st).2.map Prod.fst) = _
    rw [framesAllSys, hB]
    simp only [applyOptBox, hcop, hcop1, hchain, List.map_append]
    rw [stackRows_fst _ _ _ (by rw [hsig1, hsig0]),
      stackRows_fst _ _ _ (by rw [hbg1, hbg0])]
    rw [List.length_append, hsig1, hbg1]
  · show applyPerm _ ((framesMix env st).2.map Prod.fst) =
      applyPerm _ ((framesMix env st).1.map Prod.fst)
    rw [framesMix, hB]
    simp only [applyOptBox, hchain]

/-- Concrete honest oracle environment used by witnesses: every requested
draw is honoured with the requested number of points. -/
def envW : GenEnv :=
  { sigDraw := fun i n => List.replicate n [(i : ℚ), 2]
    bgDraw := fun i n => List.replicate n [(i : ℚ) + 10, 4]
    seedPerm := fun _ n => List.range n
    cosd := fun _ => 1
    sind := fun _ => 0
    normCdf := fun x => x
    gammaPpf := fun x _ _ => x }

lemma envW_honest : SamplerHonest envW := by
  intro i n
  constructor <;> exact List.length_replicate ..

/-- Concrete generator state with no copula and no systematics. -/
def stW : GenState := ⟨2, 1, false, none, none, none, none, none, none⟩

/-- C1 (witness): the amended draw statement at a concrete honest
environment and a concrete two-signal, one-background state. -/
theorem generate_data_independent_draws_witness :
    (generateDataAllSys envW stW).biasedData =
        applyPerm (envW.seedPerm 33 (2 + 1)) (envW.sigDraw 1 2 ++ envW.bgDraw 1 1) ∧
      (generateDataMix envW stW).biasedData = (generateDataMix envW stW).generatedData :=
  ⟨(generate_data_independent_draws_amended envW stW envW_honest rfl rfl rfl rfl rfl).2.1,
   (generate_data_independent_draws_amended envW stW envW_honest rfl rfl rfl rfl rfl).2.2⟩

/-!
## C3: same-seed shuffling preserves data-label correspondence
-/

/-- C3: shuffling a data list and a label list of the same length `n` in two
SEPARATE calls that use the same seed-determined permutation (which is what
`shuffle(..., random_state=33)` does twice in a row at the end of
`generate_data`) applies the same permutation to both, so for every index
`i < n` there is an output position `j` holding both the data row and the
label that originally sat at position `i`: the correspondence is preserved
for the original and for the biased set. -/
theorem shuffle_same_seed_alignment (p : List ℕ) (n : ℕ)
    (data : List Point) (labels : List ℚ)
    (hp : p.Perm (List.range n)) (_hd : data.length = n) (_hl : labels.length = n) :
    ∀ i, i < n → ∃ j, j < n ∧
      (applyPerm p data).getD j default = data.getD i default ∧
      (applyPerm p labels).getD j default = labels.getD i default := by
  intro i hi
  have hip : i ∈ p := hp.mem_iff.mpr (List.mem_range.mpr hi)
  have hplen : p.length = n := hp.length_eq.trans (List.length_range n)
  have hj : p.indexOf i < p.length := List.indexOf_lt_length.mpr hip
  refine ⟨p.indexOf i, hplen ▸ hj, ?_, ?_⟩
  · rw [applyPerm, List.getD_eq_getElem _ _ (by simpa using hj), List.getElem_map,
      List.getElem_indexOf hj]
  · rw [applyPerm, List.getD_eq_getElem _ _ (by simpa using hj), List.getElem_map,
      List.getElem_indexOf hj]

/-- C3 (witness): alignment at the concrete permutation `[2, 0, 1]` of
`range 3`, a three-row data list and its labels, at original index 0. -/
theorem shuffle_same_seed_alignment_witness :
    ∃ j, j < 3 ∧
      (applyPerm [2, 0, 1] [[(10 : ℚ)], [20], [30]]).getD j default =
        [[(10 : ℚ)], [20], [30]].getD 0 default ∧
      (applyPerm [2, 0, 1] [(1 : ℚ), 0, 1]).getD j default =
        [(1 : ℚ), 0, 1].getD 0 default :=
  shuffle_same_seed_alignment [2, 0, 1] 3 [[(10 : ℚ)], [20], [30]]
    [(1 : ℚ), 0, 1] (by decide) rfl rfl 0 (by decide)

/-!
## C4: weight renormalization in the HEP partitioner
-/

/-- A weighted, labelled row of the HEP reference dataset: (weight, label),
label `true` = signal (`label == 1`), `false` = background (`label == 0`). -/
abbrev WRow := ℚ × Bool

/-- `np.sum(weights[label == lbl])`: the summed weight of the rows carrying
the given label. -/
def weightSum (rows : List WRow) (lbl : Bool) : ℚ :=
  (rows.map (fun r => if r.2 = lbl then r.1 else 0)).sum

/-- The reweighting applied to every carved-out subset in
`datagen_temp.py` (train split lines 88-95, mu-calibration fold lines
126-129, each test fold lines 145-151):
`weights[label==1] *= S / s; weights[label==0] *= B / b` where `s, b` are
the subset's own signal/background weight sums. -/
def reweight (S B : ℚ) (rows : List WRow) : List WRow :=
  rows.map (fun r =>
    (r.1 * (if r.2 then S / weightSum rows true else B / weightSum rows false),
     r.2))

lemma weightSum_map_mul (rows : List WRow) (cT cF : ℚ) (lbl : Bool) :
    weightSum (rows.map (fun r => (r.1 * (if r.2 then cT else cF), r.2))) lbl =
      weightSum rows lbl * (if lbl then cT else cF) := by
  induction rows with
  | nil => simp [weightSum]
  | cons r rs ih =>
    rcases r with ⟨w, l⟩
    simp only [weightSum, List.map_cons, List.sum_cons, Function.comp] at ih ⊢
    cases l <;> cases lbl <;> simp_all [add_mul]

/-- C4: rescaling each signal row's weight by `S/s` and each background
row's weight by `B/b` (with `s`, `b` the subset's own signal and background
weight sums, both nonzero) makes the subset's signal weight total exactly
`S` and its background weight total exactly `B` in exact arithmetic.  The
same operation is what `datagen_temp.py` performs on the train split, on
the mu-calibration fold and on every test fold. -/
theorem reweight_restores_totals (S B : ℚ) (rows : List WRow)
    (hs : weightSum rows true ≠ 0) (hb : weightSum rows false ≠ 0) :
    weightSum (reweight S B rows) true = S ∧
      weightSum (reweight S B rows) false = B := by
  constructor
  · rw [reweight, weightSum_map_mul, if_pos rfl, mul_comm, div_mul_cancel₀ _ hs]
  · rw [reweight, weightSum_map_mul, if_neg Bool.false_ne_true, mul_comm,
      div_mul_cancel₀ _ hb]

/-- C4 (witness): the reweighting at a concrete subset
`[(2, signal), (3, background)]` with reference totals `S = 5`, `B = 7`:
the rescaled subset totals are exactly 5 and 7. -/
theorem reweight_restores_totals_witness :
    (weightSum [((2 : ℚ), true), (3, false)] true ≠ 0 ∧
        weightSum [((2 : ℚ), true), (3, false)] false ≠ 0) ∧
      weightSum (reweight 5 7 [((2 : ℚ), true), (3, false)]) true = 5 ∧
      weightSum (reweight 5 7 [((2 : ℚ), true), (3, false)]) false = 7 :=
  ⟨⟨by norm_num [weightSum], by norm_num [weightSum]⟩,
    reweight_restores_totals 5 7 [((2 : ℚ), true), (3, false)]
      (by norm_num [weightSum]) (by norm_num [weightSum])⟩

/-!
## C5: fixed application order of the systematics
-/

/-- C5: in `generate_data` (both pipelines) the enabled systematics are
applied to the biased data in the fixed order Rotation, then Translation,
then Scaling — each acting on the biased signal and biased background point
sets separately — and Box is applied last, jointly on the concatenated
signal+background original and biased frames; a slot holding no operator
(`None`) is skipped and leaves the data unchanged. -/
theorem systematics_fixed_order (env : GenEnv) (st : GenState) :
    framesAllSys env st =
        applyOptBox st.sysBox
          (stackRows (env.sigDraw 0 st.nSig) (env.sigDraw 0 st.nSig).length 1 ++
             stackRows (bgAfterCopula env st) (bgAfterCopula env st).length 0,
           stackRows
               (applyOptScal st.sysScaling
                 (applyOptTrans st.sysTranslation
                   (applyOptRot env st.sysRotation (env.sigDraw 1 st.nSig))))
               (env.sigDraw 0 st.nSig).length 1 ++
             stackRows
               (applyOptScal st.sysScaling
                 (applyOptTrans st.sysTranslation
                   (applyOptRot env st.sysRotation (biasedBgAfterCopula env st))))
               (bgAfterCopula env st).length 0) ∧
      framesMix env st =
        applyOptBox st.sysBox
          (stackRows (env.sigDraw 0 st.nSig) (env.sigDraw 0 st.nSig).length 1 ++
             stackRows (env.bgDraw 0 st.nBg) (env.bgDraw 0 st.nBg).length 0,
           stackRows
               (applyOptScal st.sysScaling
                 (applyOptTrans st.sysTranslation
                   (applyOptRot env st.sysRotation (env.sigDraw 0 st.nSig))))
               (env.sigDraw 0 st.nSig).length 1 ++
             stackRows
               (applyOptScal st.sysScaling
                 (applyOptTrans st.sysTranslation
                   (applyOptRot env st.sysRotation (env.bgDraw 0 st.nBg))))
               (env.bgDraw 0 st.nBg).length 0) ∧
      (∀ pts, applyOptRot env none pts = pts) ∧
      (∀ pts, applyOptTrans none pts = pts) ∧
      (∀ pts, applyOptScal none pts = pts) ∧
      (∀ fr : List Row × List Row, applyOptBox none fr = fr) :=
  ⟨rfl, rfl, fun _ => rfl, fun _ => rfl, fun _ => rfl, fun _ => rfl⟩

/-!
## C6: the copula block
-/

/-- Concrete oracle environment whose copula functions visibly change the
data (`normCdf x = x + 1`, `gammaPpf x a b = x + a + b`). -/
def envP : GenEnv :=
  { sigDraw := fun _ _ => []
    bgDraw := fun _ _ => []
    seedPerm := fun _ n => List.range n
    cosd := fun _ => 1
    sind := fun _ => 0
    normCdf := fun x => x + 1
    gammaPpf := fun x a b => x + a + b }

/-- C6 (counterexample): with `apply_copula` set and `alpha = 0`,
`beta = 1` — both parameters SET in the configuration — the copula block
leaves both background sets unchanged and logs the warning, because the
code tests Python truthiness (`if self.alpha and self.beta:`) and `0` is
falsy; yet the remap itself would have changed the data.  This refutes the
claimed "if and only if alpha and beta are set". -/
theorem copula_set_zero_alpha_cex :
    (some (0 : ℚ)).isSome = true ∧ (some (1 : ℚ)).isSome = true ∧
      copulaStep envP true (some 0) (some 1) [[5]] [[6]] = ([[5]], [[6]], true) ∧
      copulaMap envP 0 1 [[5]] ≠ [[5]] := by
  refine ⟨rfl, rfl, rfl, ?_⟩
  simp only [copulaMap, envP, List.map_cons, List.map_nil]
  intro h
  have h5 : ((5 : ℚ) + 1 + 0 + 1) = 5 := by simpa using h
  norm_num at h5

/-- C6 (amended): the copula block remaps both background point sets
through the normal CDF followed by the Gamma inverse CDF if and only if
`apply_copula` is set and `alpha` and `beta` are both set AND nonzero
(Python truthiness); when `apply_copula` is set but a parameter is falsy it
logs a warning (third component `true`) and leaves both background sets
unchanged, and generation proceeds; with `apply_copula` unset nothing
happens and no warning is logged. -/
theorem copula_applied_iff_truthy (env : GenEnv) (al be : Option ℚ)
    (bg bbg : List Point) :
    (truthy al = true → truthy be = true →
        copulaStep env true al be bg bbg =
          (copulaMap env (al.getD 0) (be.getD 0) bg,
           copulaMap env (al.getD 0) (be.getD 0) bbg, false)) ∧
      (truthy al = false ∨ truthy be = false →
        copulaStep env true al be bg bbg = (bg, bbg, true)) ∧
      copulaStep env false al be bg bbg = (bg, bbg, false) := by
  refine ⟨?_, ?_, rfl⟩
  · intro hA hB
    rw [copulaStep]
    simp [hA, hB]
  · intro h
    rw [copulaStep]
    rcases h with h | h <;> simp [h]

/-- C6 (witness): the amended statement at truthy parameters
`alpha = 2`, `beta = 3` on a one-point background set: the remap is
applied and no warning is logged. -/
theorem copula_applied_iff_truthy_witness :
    truthy (some (2 : ℚ)) = true ∧ truthy (some (3 : ℚ)) = true ∧
      copulaStep envP true (some 2) (some 3) [[5]] [] =
        (copulaMap envP ((some (2 : ℚ)).getD 0) ((some (3 : ℚ)).getD 0) [[5]],
         copulaMap envP ((some (2 : ℚ)).getD 0) ((some (3 : ℚ)).getD 0) [], false) :=
  ⟨rfl, rfl, (copula_applied_iff_truthy envP (some 2) (some 3) [[5]] []).1 rfl rfl⟩

/-!
## C7: fatality of missing distributions at construction time

`Logger` and `Checker` are imported modules whose source is outside this
snapshot; the spec scopes logging out as printing only, and every fatal
branch in the generator source calls `exit()` explicitly after
`logger.error(...)`, so `error` is modelled as recording a message and
`exit()` as the abort.
-/

/-- The configuration fields that drive distribution loading in the AllSys
`__init__`. -/
structure InitConfig where
  backgroundName : String
  signalFromBackground : Bool
  signalName : String

/-- Observable outcome of running the AllSys `__init__`: whether the
process aborted (`exit()`), which distributions got loaded, whether the
systematics-loading stage still ran, and the error messages printed. -/
structure InitResult where
  aborted : Bool
  backgroundLoaded : Bool
  signalLoaded : Bool
  systematicsLoaded : Bool
  errors : List String

/-- AllSys `DataGenerator.__init__` distribution validation
(data_generator_all_systematics.py lines 100-220): an unrecognized
background name logs an error and calls `exit()` — nothing further runs;
an invalid signal distribution only logs an error (NO `exit()`, lines
160-163) and initialization continues through the systematics loop. -/
def initAllSys (cfg : InitConfig) : InitResult :=
  if cfg.backgroundName ≠ "Gaussian" ∧ cfg.backgroundName ≠ "Gamma" then
    { aborted := true, backgroundLoaded := false, signalLoaded := false,
      systematicsLoaded := false,
      errors := ["Background distribution should be Gaussian or Gamma!"] }
  else
    let sigOk :=
      if cfg.signalFromBackground ∧ cfg.backgroundName = "Gaussian" then true
      else cfg.signalName = "Gaussian"
    { aborted := false, backgroundLoaded := true, signalLoaded := sigOk,
      systematicsLoaded := true,
      errors := if sigOk then [] else ["Signal Distributions should be Gaussian only!"] }

/-- The guard block at the top of AllSys `generate_data` (lines 227-239):
`exit()` when the signal or background distribution is not loaded or the
systematics are not loaded. -/
def generateEntryAborts (r : InitResult) : Bool :=
  !r.signalLoaded || !r.backgroundLoaded || !r.systematicsLoaded

/-- C7 (counterexample): constructing the generator with background
`Gaussian`, `signal_from_background = False` and an unrecognized signal
distribution name does NOT abort: the error is only logged and the
constructor still loads the systematics — refuting the claim that a
missing/invalid signal distribution fails fatally at construction with no
further initialization. -/
theorem init_signal_error_not_fatal_cex :
    (initAllSys ⟨"Gaussian", false, "Uniform"⟩).aborted = false ∧
      (initAllSys ⟨"Gaussian", false, "Uniform"⟩).systematicsLoaded = true ∧
      (initAllSys ⟨"Gaussian", false, "Uniform"⟩).signalLoaded = false ∧
      (initAllSys ⟨"Gaussian", false, "Uniform"⟩).errors =
        ["Signal Distributions should be Gaussian only!"] := by
  refine ⟨?_, ?_, ?_, ?_⟩ <;> decide

/-- C7 (amended): an unrecognized background distribution name (neither
`Gaussian` nor `Gamma`) aborts the construction fatally with no further
initialization; an invalid signal distribution instead only logs an error
at construction — the constructor completes and loads the systematics —
and the fatal abort happens at the subsequent `generate_data` call's guard. -/
theorem init_fatal_amended (cfg : InitConfig) :
    (cfg.backgroundName ≠ "Gaussian" → cfg.backgroundName ≠ "Gamma" →
        initAllSys cfg =
          { aborted := true, backgroundLoaded := false, signalLoaded := false,
            systematicsLoaded := false,
            errors := ["Background distribution should be Gaussian or Gamma!"] }) ∧
      ((cfg.backgroundName = "Gaussian" ∨ cfg.backgroundName = "Gamma") →
        ¬(cfg.signalFromBackground ∧ cfg.backgroundName = "Gaussian") →
        cfg.signalName ≠ "Gaussian" →
        (initAllSys cfg).aborted = false ∧
          (initAllSys cfg).systematicsLoaded = true ∧
          (initAllSys cfg).errors =
            ["Signal Distributions should be Gaussian only!"] ∧
          generateEntryAborts (initAllSys cfg) = true) := by
  constructor
  · intro h1 h2
    rw [initAllSys, if_pos ⟨h1, h2⟩]
  · intro hbg hnotfb hsig
    have hcond : ¬(cfg.backgroundName ≠ "Gaussian" ∧ cfg.backgroundName ≠ "Gamma") := by
      rcases hbg with h | h <;> simp [h]
    simp [initAllSys, if_neg hcond, hnotfb, hsig, generateEntryAborts]

/-- C7 (witness): the amended statement at two concrete configurations —
background name `Poisson` aborts construction; background `Gaussian` with
signal name `Uniform` completes construction and trips the
`generate_data` guard. -/
theorem init_fatal_amended_witness :
    (initAllSys ⟨"Poisson", false, "Gaussian"⟩).aborted = true ∧
      generateEntryAborts (initAllSys ⟨"Gaussian", true, "Gamma"⟩) = false ∧
      generateEntryAborts (initAllSys ⟨"Gamma", false, "Uniform"⟩) = true := by
  have h1 := (init_fatal_amended ⟨"Poisson", false, "Gaussian"⟩).1
    (by decide) (by decide)
  have h2 := (init_fatal_amended ⟨"Gamma", false, "Uniform"⟩).2
    (Or.inr rfl) (by decide) (by decide)
  exact ⟨by rw [h1], by decide, h2.2.2.2⟩

/-!
## C8: derivation of the Translation vector
-/

lemma applyTranslation_getD (v : ℚ × ℚ) (pts : List Point) (i : ℕ) :
    (applyTranslation v pts).getD i [] = addVec2 v (pts.getD i []) := by
  induction pts generalizing i with
  | nil => cases i <;> simp [applyTranslation, addVec2]
  | cons p ps ih =>
    cases i with
    | zero => simp [applyTranslation]
    | succ n => simpa [applyTranslation] using ih n

/-- Concrete trigonometric oracle agreeing with `cos(radians(30))` to 16
significant digits (`cos 30° = 0.8660254037844387…`) and with
`sin(radians(30)) = 1/2` exactly. -/
def envT : GenEnv :=
  { sigDraw := fun _ _ => []
    bgDraw := fun _ _ => []
    seedPerm := fun _ n => List.range n
    cosd := fun a => if a = 30 then 8660254037844387/10000000000000000 else 0
    sind := fun a => if a = 30 then 1/2 else 0
    normCdf := fun x => x
    gammaPpf := fun x _ _ => x }

/-- C8 (counterexample): for the Mix pipeline's Translation descriptor
`(z_magnitude = 1, alpha = 30)`, the constructed vector uses
`round(cos(radians(30)), 2) = 0.87`, which differs from `cos(radians(30))`
itself — so the vector is NOT `z_magnitude * (cos(alpha), sin(alpha))` as
the claim asserts for both pipelines. -/
theorem translation_vector_rounding_cex :
    (loadSystematicsMix envT [] [SystematicDesc.translation 1 30]).translation =
        some (87/100 * 1, 1/2 * 1) ∧
      round2 (envT.cosd 30) ≠ envT.cosd 30 ∧
      (loadSystematicsMix envT [] [SystematicDesc.translation 1 30]).translation ≠
        some (envT.cosd 30 * 1, envT.sind 30 * 1) := by
  have hc : envT.cosd 30 = 8660254037844387/10000000000000000 := by
    simp [envT]
  have hs : envT.sind 30 = 1/2 := by simp [envT]
  have hr : round2 (envT.cosd 30) = 87/100 := by
    rw [hc]
    norm_num [round2, pyRound, roundHalfEven]
  have hhalf : round2 ((1 : ℚ)/2) = 1/2 := by
    norm_num [round2, pyRound, roundHalfEven]
  refine ⟨?_, ?_, ?_⟩
  · show (loadStepMix envT [] ⟨none, none, none, none⟩
        (SystematicDesc.translation 1 30)).translation = _
    rw [loadStepMix]
    rw [hr, hs, hhalf]
  · rw [hr, hc]
    norm_num
  · show (loadStepMix envT [] ⟨none, none, none, none⟩
        (SystematicDesc.translation 1 30)).translation ≠ _
    rw [loadStepMix]
    simp only [hr, hs, hc, hhalf, ne_eq, Option.some.injEq, Prod.mk.injEq, not_and]
    intro h
    have hr2 : round2 ((8660254037844387 : ℚ)/10000000000000000) = 87/100 := by
      norm_num [round2, pyRound, roundHalfEven]
    rw [hr2] at h
    norm_num at h

/-- C8 (amended): the AllSys pipeline derives the Translation vector from
the descriptor's `(z_magnitude, alpha)` exactly as
`z_magnitude * (cos(radians(alpha)), sin(radians(alpha)))`; the Mix
pipeline instead uses the cosine and sine ROUNDED to 2 decimal places,
`z_magnitude * (round(cos(radians(alpha)), 2), round(sin(radians(alpha)), 2))`.
In both pipelines applying the constructed translation adds the fixed
vector to the first two axes of every point, higher axes untouched. -/
theorem translation_vector_amended (env : GenEnv) (bc : List ℚ) (z a : ℚ) :
    (loadSystematicsAllSys env bc [SystematicDesc.translation z a]).translation =
        some (env.cosd a * z, env.sind a * z) ∧
      (loadSystematicsMix env bc [SystematicDesc.translation z a]).translation =
        some (round2 (env.cosd a) * z, round2 (env.sind a) * z) ∧
      (∀ (v : ℚ × ℚ) (pts : List Point) (i : ℕ),
        (applyTranslation v pts).getD i [] = addVec2 v (pts.getD i [])) ∧
      (∀ (v : ℚ × ℚ) (x y : ℚ) (rest : List ℚ),
        addVec2 v (x :: y :: rest) = (x + v.1) :: (y + v.2) :: rest) :=
  ⟨rfl, rfl, applyTranslation_getD, fun _ _ _ _ => rfl⟩

/-!
## C10: Translation has no disabling threshold
-/

lemma addVec2_zero (p : Point) : addVec2 0 p = p := by
  rcases p with _ | ⟨x, _ | ⟨y, rest⟩⟩ <;> simp [addVec2]

/-- C10: a Translation descriptor constructs the translation operator for
EVERY `z_magnitude`, including 0 and negative values (the loop has no
condition on it), unlike Scaling (constructed iff `scaling_factor > 1`),
Rotation (iff `rotation_degree ≠ 0`) and Box (iff `box_l > 1`); and with
`z_magnitude = 0` the constructed vector is the zero vector, so applying
the translation leaves every point numerically unchanged — in both
pipelines. -/
theorem translation_no_disabling_threshold (env : GenEnv) (bc : List ℚ)
    (z a f r l : ℚ) (pts : List Point) :
    ((loadSystematicsAllSys env bc [SystematicDesc.translation z a]).translation).isSome
        = true ∧
      ((loadSystematicsMix env bc [SystematicDesc.translation z a]).translation).isSome
        = true ∧
      (((loadSystematicsAllSys env bc [SystematicDesc.scaling f]).scaling).isSome = true
        ↔ f > 1) ∧
      (((loadSystematicsAllSys env bc [SystematicDesc.rotation r]).rotation).isSome = true
        ↔ r ≠ 0) ∧
      (((loadSystematicsAllSys env bc [SystematicDesc.box l]).box).isSome = true
        ↔ l > 1) ∧
      applyTranslation
          ((loadSystematicsAllSys env bc
            [SystematicDesc.translation 0 a]).translation.getD (0, 0)) pts = pts ∧
      applyTranslation
          ((loadSystematicsMix env bc
            [SystematicDesc.translation 0 a]).translation.getD (0, 0)) pts = pts := by
  refine ⟨rfl, rfl, ?_, ?_, ?_, ?_, ?_⟩
  · show ((loadStepAllSys env bc ⟨none, none, none, none⟩
        (SystematicDesc.scaling f)).scaling).isSome = true ↔ f > 1
    rw [loadStepAllSys]
    split_ifs with h <;> simp [h]
  · show ((loadStepAllSys env bc ⟨none, none, none, none⟩
        (SystematicDesc.rotation r)).rotation).isSome = true ↔ r ≠ 0
    rw [loadStepAllSys]
    split_ifs with h <;> simp [h]
  · show ((loadStepAllSys env bc ⟨none, none, none, none⟩
        (SystematicDesc.box l)).box).isSome = true ↔ l > 1
    rw [loadStepAllSys]
    split_ifs with h <;> simp [h]
  · show applyTranslation (env.cosd a * 0, env.sind a * 0) pts = pts
    rw [mul_zero, mul_zero, applyTranslation,
      show addVec2 ((0 : ℚ), (0 : ℚ)) = id from funext addVec2_zero, List.map_id]
  · show applyTranslation (round2 (env.cosd a) * 0, round2 (env.sind a) * 0) pts = pts
    rw [mul_zero, mul_zero, applyTranslation,
      show addVec2 ((0 : ℚ), (0 : ℚ)) = id from funext addVec2_zero, List.map_id]

/-!
## C9: original and biased label arrays coincide
-/

lemma zip_snd_eq : ∀ {fa fb : List Row}, fa.map Prod.snd = fb.map Prod.snd →
    ∀ pr ∈ fa.zip fb, pr.1.2 = pr.2.2 := by
  intro fa
  induction fa with
  | nil =>
    intro fb h pr hpr
    simp at hpr
  | cons a as ih =>
    intro fb h pr hpr
    cases fb with
    | nil => simp at hpr
    | cons b bs =>
      simp only [List.map_cons, List.cons.injEq] at h
      rcases List.mem_cons.mp (by simpa [List.zip_cons_cons] using hpr) with h1 | h1
      · rw [h1]
        exact h.1
      · exact ih h.2 pr h1

lemma applyBox_labels (c : List ℚ) (len : ℚ) (fa fb : List Row)
    (h : fa.map Prod.snd = fb.map Prod.snd) :
    (applyBox c len fa fb).1.map Prod.snd = (applyBox c len fa fb).2.map Prod.snd := by
  rw [applyBox]
  simp only [List.map_map, Function.comp]
  apply List.map_congr_left
  intro pr hpr
  exact zip_snd_eq h pr (List.mem_of_mem_filter hpr)

lemma applyOptBox_labels (ob : Option (List ℚ × ℚ)) (fa fb : List Row)
    (h : fa.map Prod.snd = fb.map Prod.snd) :
    (applyOptBox ob (fa, fb)).1.map Prod.snd =
      (applyOptBox ob (fa, fb)).2.map Prod.snd := by
  cases ob with
  | none => exact h
  | some cl => exact applyBox_labels cl.1 cl.2 fa fb h

lemma framesAllSys_labels (env : GenEnv) (st : GenState) (hs : SamplerHonest env) :
    (framesAllSys env st).1.map Prod.snd = (framesAllSys env st).2.map Prod.snd := by
  rw [framesAllSys]
  apply applyOptBox_labels
  have hl1 : (biasChain env st (env.sigDraw 1 st.nSig)).length =
      (env.sigDraw 0 st.nSig).length := by
    rw [biasChain_length, (hs 1 st.nSig).1, (hs 0 st.nSig).1]
  have hl2 : (biasChain env st (biasedBgAfterCopula env st)).length =
      (bgAfterCopula env st).length := by
    rw [biasChain_length, biasedBgAfterCopula_length, bgAfterCopula_length,
      (hs 1 st.nBg).2, (hs 0 st.nBg).2]
  rw [List.map_append, List.map_append, stackRows_snd _ _ _ rfl,
    stackRows_snd _ _ _ rfl, stackRows_snd _ _ _ hl1, stackRows_snd _ _ _ hl2]

/-- C9: after every `generate_data` run of the AllSys pipeline (provided the
distributions honour the requested population sizes), the original label
array and the biased label array are identical element-by-element: labels
are stacked in the same signal-then-background order onto both frames, Box
removes exactly the same row positions from both frames, and both label
arrays — being equal lists of equal length — are shuffled by the same
seed-33 permutation.  Consequently the persisted train and test label
files have identical content. -/
theorem labels_identical_original_biased (env : GenEnv) (st : GenState)
    (hs : SamplerHonest env) :
    (generateDataAllSys env st).generatedLabels =
        (generateDataAllSys env st).biasedLabels ∧
      serializeLabels (generateDataAllSys env st).generatedLabels =
        serializeLabels (generateDataAllSys env st).biasedLabels := by
  have h := framesAllSys_labels env st hs
  have h1 : (generateDataAllSys env st).generatedLabels =
      (generateDataAllSys env st).biasedLabels := by
    show applyPerm (env.seedPerm 33 ((framesAllSys env st).1.map Prod.snd).length)
        ((framesAllSys env st).1.map Prod.snd) =
      applyPerm (env.seedPerm 33 ((framesAllSys env st).2.map Prod.snd).length)
        ((framesAllSys env st).2.map Prod.snd)
    rw [h]
  exact ⟨h1, congrArg serializeLabels h1⟩

/-- C9 (witness): identical label arrays at the concrete honest environment
`envW` and state `stW`. -/
theorem labels_identical_witness :
    SamplerHonest envW ∧
      (generateDataAllSys envW stW).generatedLabels =
        (generateDataAllSys envW stW).biasedLabels :=
  ⟨envW_honest, (labels_identical_original_biased envW stW envW_honest).1⟩

end FairUniverse
